import Mathlib

/-!
Verification development for `src/pty-helper.py` (simple-terminal's Unix PTY
bridge).  The Python source is shallowly embedded below: byte strings become
`List Nat` (each entry one byte, or one code point after decoding), the
`selectors`-based event loop becomes an explicit step function on a loop-state
record, and fallible operations return `Option`/explicit error values.
-/

/-- Bytes of an ASCII string, used to write concrete test inputs readably.
Only applied to ASCII strings, where code points and UTF-8 bytes coincide. -/
def asciiBytes (s : String) : List Nat := s.data.map Char.toNat

/-! ## Strict UTF-8 decoding

Embeds `bytes.decode("UTF-8", "strict")` (line 82 of the source): CPython's
strict decoder rejects stray continuation bytes, overlong encodings, surrogate
code points, code points above U+10FFFF and truncated sequences.  `none`
models an uncaught `UnicodeDecodeError`. -/

def utf8Decode : List Nat → Option (List Nat)
  | [] => some []
  | b :: rest =>
    if b < 128 then (utf8Decode rest).map (fun cs => b :: cs)
    else if b < 194 then none
    else if b < 224 then
      match rest with
      | b1 :: r =>
        if 128 ≤ b1 ∧ b1 < 192 then
          (utf8Decode r).map (fun cs => ((b - 192) * 64 + (b1 - 128)) :: cs)
        else none
      | [] => none
    else if b < 240 then
      match rest with
      | b1 :: b2 :: r =>
        if (128 ≤ b1 ∧ b1 < 192) ∧ (128 ≤ b2 ∧ b2 < 192) ∧
            ¬(b = 224 ∧ b1 < 160) ∧ ¬(b = 237 ∧ 160 ≤ b1) then
          (utf8Decode r).map
            (fun cs => ((b - 224) * 4096 + (b1 - 128) * 64 + (b2 - 128)) :: cs)
        else none
      | _ => none
    else if b < 245 then
      match rest with
      | b1 :: b2 :: b3 :: r =>
        if (128 ≤ b1 ∧ b1 < 192) ∧ (128 ≤ b2 ∧ b2 < 192) ∧ (128 ≤ b3 ∧ b3 < 192) ∧
            ¬(b = 240 ∧ b1 < 144) ∧ ¬(b = 244 ∧ 144 ≤ b1) then
          (utf8Decode r).map
            (fun cs =>
              ((b - 240) * 262144 + (b1 - 128) * 4096 + (b2 - 128) * 64 + (b3 - 128)) :: cs)
        else none
      | _ => none
    else none

/-! ## `str.splitlines`

Embeds Python `str.splitlines()` over decoded code points: line boundaries are
LF, CR, CRLF, VT, FF, FS, GS, RS, NEL, LINE SEPARATOR and PARAGRAPH SEPARATOR;
no trailing empty line is produced for input ending in a boundary. -/

def pyLineBreak (c : Nat) : Bool :=
  c == 10 || c == 11 || c == 12 || c == 13 || c == 28 || c == 29 || c == 30 ||
  c == 133 || c == 8232 || c == 8233

def pySplitlinesAux : List Nat → List Nat → List (List Nat)
  | [], acc => if acc.isEmpty then [] else [acc.reverse]
  | 13 :: 10 :: rest, acc => acc.reverse :: pySplitlinesAux rest []
  | c :: rest, acc =>
    if pyLineBreak c then acc.reverse :: pySplitlinesAux rest []
    else pySplitlinesAux rest (c :: acc)

def pySplitlines (cs : List Nat) : List (List Nat) := pySplitlinesAux cs []

/-! ## `line.split("x", 2)` -/

/-- Split off everything before the first `'x'` (code 120); `none` when the
line contains no `'x'`. -/
def pySplitOnceX : List Nat → Option (List Nat × List Nat)
  | [] => none
  | c :: rest =>
    if c = 120 then some ([], rest)
    else (pySplitOnceX rest).map (fun p => (c :: p.1, p.2))

/-- Python `split("x", maxsplit)`: at most `maxsplit` splits, remainder kept
whole.  The source uses `line.split("x", 2)` (line 84). -/
def pySplitXMax : Nat → List Nat → List (List Nat)
  | 0, cs => [cs]
  | k + 1, cs =>
    match pySplitOnceX cs with
    | none => [cs]
    | some p => p.1 :: pySplitXMax k p.2

/-! ## `int(ss.strip())`

Embeds `str.strip()` (ASCII whitespace; the exotic Unicode whitespace Python
also strips cannot occur in split lines of the claims' inputs) followed by
`int(...)`: optional sign then a nonempty run of decimal digits.  `none`
models `ValueError`. -/

def pyWhitespace (c : Nat) : Bool :=
  c == 32 || c == 9 || c == 10 || c == 11 || c == 12 || c == 13

def pyStrip (cs : List Nat) : List Nat :=
  ((cs.dropWhile pyWhitespace).reverse.dropWhile pyWhitespace).reverse

def digitsAcc : List Nat → Nat → Option Nat
  | [], acc => some acc
  | c :: rest, acc =>
    if 48 ≤ c ∧ c ≤ 57 then digitsAcc rest (acc * 10 + (c - 48)) else none

def digitsValNE (cs : List Nat) : Option Nat :=
  if cs.isEmpty then none else digitsAcc cs 0

def pyInt (cs : List Nat) : Option Int :=
  match pyStrip cs with
  | [] => none
  | 43 :: rest => (digitsValNE rest).map (fun n => (n : Int))
  | 45 :: rest => (digitsValNE rest).map (fun n => -(n : Int))
  | s => (digitsValNE s).map (fun n => (n : Int))

/-! ## Resize line parsing

Embeds `rows, columns = (int(ss.strip()) for ss in line.split("x", 2))`
(line 84).  Unpacking the generator into two names succeeds exactly when the
split produced two fields and both parse as integers; a wrong field count or
a failing `int` raises `ValueError`/`IndexError`, which line 91 catches, so
those lines yield `none` (silently discarded). -/

def parseResize (line : List Nat) : Option (Int × Int) :=
  match pySplitXMax 2 line with
  | [a, b] =>
    match pyInt a, pyInt b with
    | some r, some c => some (r, c)
    | _, _ => none
  | _ => none

/-- Embeds `struct.pack("HHHH", rows, columns, 0, 0)` (line 89): four 16-bit
unsigned fields, native little-endian byte order; a field outside `0..65535`
raises `struct.error` — which is NOT a `ValueError` and is therefore not
caught by line 91.  `none` models that uncaught `struct.error`. -/
def packHHHH (rows cols : Int) : Option (List Nat) :=
  if 0 ≤ rows ∧ rows ≤ 65535 ∧ 0 ≤ cols ∧ cols ≤ 65535 then
    some [rows.toNat % 256, rows.toNat / 256, cols.toNat % 256, cols.toNat / 256,
          0, 0, 0, 0]
  else none

inductive CmdError where
  | unicodeDecodeError : CmdError
  | structError : CmdError
deriving DecidableEq

/-- Result of one `process_cmdio` run over the decoded lines: the geometry
updates applied to the PTY by `ioctl(..., TIOCSWINSZ, ...)`, in order, and
the uncaught exception (if any) that aborted the batch. -/
structure CmdOutcome where
  applied : List (Nat × Nat)
  error : Option CmdError
deriving DecidableEq

/-- A line that parses as `<rows>x<columns>` with both fields in `0..65535`,
the range `struct.pack("H", ...)` accepts. -/
def goodResizeLine (l : List Nat) : Bool :=
  match parseResize l with
  | some rc =>
    decide (0 ≤ rc.1) && decide (rc.1 ≤ 65535) && decide (0 ≤ rc.2) && decide (rc.2 ≤ 65535)
  | none => false

/-- Embeds the `for line in ...` loop of `process_cmdio` (lines 82-93): a line
failing to parse is skipped (`except (ValueError, IndexError): pass`); a line
parsing to integers with a field outside `0..65535` raises `struct.error`
inside `_pack`, which the `except` clause does not catch, so the batch aborts
with the earlier updates already applied and later lines unprocessed. -/
def processLines : List (List Nat) → CmdOutcome
  | [] => ⟨[], none⟩
  | line :: rest =>
    match parseResize line with
    | none => processLines rest
    | some rc =>
      match packHHHH rc.1 rc.2 with
      | none => ⟨[], some CmdError.structError⟩
      | some _ =>
        let out := processLines rest
        ⟨(rc.1.toNat, rc.2.toNat) :: out.applied, out.error⟩

/-- Embeds the body of `process_cmdio` for a nonempty batch `data` read from
descriptor 3 (lines 82-93): strict UTF-8 decode (an undecodable batch raises
`UnicodeDecodeError` outside the `try`), `splitlines`, then the per-line loop. -/
def process_cmdio (data : List Nat) : CmdOutcome :=
  match utf8Decode data with
  | none => ⟨[], some CmdError.unicodeDecodeError⟩
  | some text => processLines (pySplitlines text)

/-! ## `write_all`

Embeds

    def write_all(fd, data):
        while data:
            data = data[_write(fd, data):]

(lines 46-49).  `os.write` returns the number of bytes actually written; the
oracle list supplies those return values call by call (capped at the length of
the remaining buffer, as the OS guarantees).  The result is the list of byte
chunks successively handed to the descriptor; `none` models a run where the
oracle is exhausted, or the loop makes no progress (a `0`-byte write repeated
forever). -/

def write_all : List Nat → List Nat → Option (List (List Nat))
  | _, [] => some []
  | [], _ :: _ => none
  | n :: os, d :: ds =>
    let k := min n (d :: ds).length
    if k = 0 then none
    else (write_all os (List.drop k (d :: ds))).map (fun cs => List.take k (d :: ds) :: cs)

/-- Chunk size of every `os.read` in the loop (line 29 of the source). -/
def CHUNK_SIZE : Nat := 1024

/-! ## The event loop

The three sources registered with the selector (lines 96-98). -/

inductive Src where
  | pty : Src
  | stdin : Src
  | cmdio : Src
deriving DecidableEq

/-- A readiness event delivered by `selector.select()` together with the
outcome of the `os.read` the reaction performs: `[]` models a zero-byte read
(end-of-stream); `ptyReadErr` models `os.read(pty_fd, ...)` raising `OSError`
(caught on lines 59-60 and converted to `b""`). -/
inductive Ev where
  | ptyRead : List Nat → Ev
  | ptyReadErr : Ev
  | stdinRead : List Nat → Ev
  | cmdioRead : List Nat → Ev
deriving DecidableEq

def Ev.source : Ev → Src
  | Ev.ptyRead _ => Src.pty
  | Ev.ptyReadErr => Src.pty
  | Ev.stdinRead _ => Src.stdin
  | Ev.cmdioRead _ => Src.cmdio

/-- Loop state: the `running` flag (line 52), which descriptors remain
registered with the selector, and whether an uncaught exception has escaped a
reaction (aborting the `while` loop and the process). -/
structure LoopState where
  running : Bool
  regs : Src → Bool
  crashed : Bool

def setReg (r : Src → Bool) (x : Src) (b : Bool) : Src → Bool :=
  fun y => if y = x then b else r y

/-- State after `selector.register` of all three sources (lines 96-98),
entering the loop with `running = True`. -/
def initState : LoopState := ⟨true, fun _ => true, false⟩

/-- Embeds `pipe_pty` (lines 54-65): `none` models `OSError` from the read,
converted to `b""`; an empty read unregisters the PTY and clears `running`. -/
def pipe_pty (s : LoopState) (readResult : Option (List Nat)) : LoopState :=
  let data := readResult.getD []
  if data.isEmpty then
    { s with regs := setReg s.regs Src.pty false, running := false }
  else s

/-- Embeds `pipe_stdin` (lines 67-73): an empty read unregisters stdin only;
otherwise the chunk is written (via `write_all`) to the PTY master. -/
def pipe_stdin (s : LoopState) (data : List Nat) : LoopState :=
  if data.isEmpty then { s with regs := setReg s.regs Src.stdin false }
  else s

/-- Embeds the state effects of `process_cmdio` (lines 75-93): an empty read
unregisters descriptor 3 only; otherwise the batch is decoded and parsed
(`process_cmdio` above), and an uncaught exception escapes the reaction and
aborts the loop. -/
def process_cmdio_step (s : LoopState) (data : List Nat) : LoopState :=
  if data.isEmpty then { s with regs := setReg s.regs Src.cmdio false }
  else
    match (process_cmdio data).error with
    | some _ => { s with crashed := true }
    | none => s

/-- One callback dispatch of the event loop (lines 101-103).  The selector
only reports registered descriptors, so events on unregistered sources do not
occur (modelled as no-ops); once an exception has escaped, no further
callback runs. -/
def step (s : LoopState) (e : Ev) : LoopState :=
  if s.crashed then s
  else
    match e with
    | Ev.ptyRead d => if s.regs Src.pty then pipe_pty s (some d) else s
    | Ev.ptyReadErr => if s.regs Src.pty then pipe_pty s none else s
    | Ev.stdinRead d => if s.regs Src.stdin then pipe_stdin s d else s
    | Ev.cmdioRead d => if s.regs Src.cmdio then process_cmdio_step s d else s

def runLoop (evs : List Ev) : LoopState := evs.foldl step initState

/-- The `while running:` loop stops iterating when `running` is cleared or an
uncaught exception propagates out of a callback. -/
def loopEnded (s : LoopState) : Bool := s.crashed || !s.running

/-- An event whose read returned zero bytes, or the PTY read error the code
folds into the zero-byte path (lines 59-60). -/
def isEofEv : Ev → Bool
  | Ev.ptyRead d => d.isEmpty
  | Ev.ptyReadErr => true
  | Ev.stdinRead d => d.isEmpty
  | Ev.cmdioRead d => d.isEmpty

/-! ## Child status translation and the reaper

`os.waitstatus_to_exitcode` over the POSIX wait-status encoding: low seven
bits zero means normal exit (code in the second byte); low seven bits in
`1..126` means killed by that signal, mapped to minus the signal number;
`127` (stopped) raises `ValueError`, modelled as `none`. -/

def waitstatus_to_exitcode (status : Nat) : Option Int :=
  if status % 128 = 0 then some ((status / 256) % 256 : Nat)
  else if status % 128 = 127 then none
  else some (-((status % 128 : Nat) : Int))

/-- Wait status of a child that exited normally with `code`. -/
def mkExitedStatus (code : Nat) : Nat := 256 * code

/-- Wait status of a child killed by signal `sig` (`1 ≤ sig ≤ 126`). -/
def mkSignaledStatus (sig : Nat) : Nat := sig

/-- What `main` does after the `with` block: number of `os.waitpid` calls made
and the argument passed to `sys.exit` (line 106). -/
structure FinalResult where
  waitCalls : Nat
  exitArg : Option Int
deriving DecidableEq

/-- `main` from the loop onwards: run the event loop on the given events; if
an exception escaped a callback it propagates past line 106, so `waitpid` is
never called and the interpreter dies with a traceback (no `sys.exit`
argument).  If the loop is still running the program has not reached line 106
(`none`).  On normal loop exit, `os.waitpid(pid, 0)` runs exactly once and
its status is translated and passed to `sys.exit`. -/
def mainRun (evs : List Ev) (status : Nat) : Option FinalResult :=
  let s := runLoop evs
  if s.crashed then some ⟨0, none⟩
  else if s.running then none
  else some ⟨1, waitstatus_to_exitcode status⟩

/-! ## The operations `main` performs (parent path)

One abstract operation per externally visible action of `main`
(lines 34-106), in program order.  The constructors for terminal-attribute
manipulation (`tcgetattr` capture, `setraw`, `tcsetattr` restore) exist so
that their absence from the program is expressible. -/

inductive MainOp where
  | getenvShell : MainOp
  | forkPty : MainOp
  | registerSource : Src → MainOp
  | selectLoop : MainOp
  | waitChild : MainOp
  | exitProcess : MainOp
  | tcgetattr : MainOp
  | setraw : MainOp
  | tcsetattr : MainOp
deriving DecidableEq

/-- The operations of `main` on the parent path, in source order:
`_environ.get` (line 36), `_pty.fork` (line 39), the three
`selector.register` calls (lines 96-98), the select/dispatch loop
(lines 101-103), `_waitpid` and `_exit` (line 106).  The source contains no
`termios`/`tty` call whatsoever. -/
def mainOps : List MainOp :=
  [MainOp.getenvShell, MainOp.forkPty,
   MainOp.registerSource Src.pty, MainOp.registerSource Src.stdin,
   MainOp.registerSource Src.cmdio,
   MainOp.selectLoop, MainOp.waitChild, MainOp.exitProcess]

def isTermAttrOp : MainOp → Bool
  | MainOp.tcgetattr => true
  | MainOp.setraw => true
  | MainOp.tcsetattr => true
  | _ => false

/-! ## The child branch of the fork

Embeds lines 41-43: on `pid == 0` the branch body is the single statement
`_execvp(shell, [shell])`.  `os.execvp` never returns normally — it either
replaces the process image or raises `OSError`; an uncaught exception
unwinds `main` and terminates the child interpreter, so no statement after a
raising one executes. -/

inductive ExecResult where
  | replaced : ExecResult
  | raisedOSError : ExecResult
deriving DecidableEq

inductive CStmt where
  | execvpStmt : CStmt
  | parentOnlyCode : CStmt
deriving DecidableEq

inductive ChildOutcome where
  | execedShell : ChildOutcome
  | exitedWithError : ChildOutcome
  | fellThroughToParentLoop : ChildOutcome
deriving DecidableEq

inductive StmtRes where
  | cont : StmtRes
  | exception : StmtRes
  | imageReplaced : StmtRes
deriving DecidableEq

def stmtSem : CStmt → ExecResult → StmtRes
  | CStmt.execvpStmt, ExecResult.replaced => StmtRes.imageReplaced
  | CStmt.execvpStmt, ExecResult.raisedOSError => StmtRes.exception
  | CStmt.parentOnlyCode, _ => StmtRes.cont

/-- Sequential execution of the child branch: running off the end of the
branch body would continue into the parent-side code that follows the `if`. -/
def runChildProcess (r : ExecResult) : List CStmt → ChildOutcome
  | [] => ChildOutcome.fellThroughToParentLoop
  | st :: rest =>
    match stmtSem st r with
    | StmtRes.imageReplaced => ChildOutcome.execedShell
    | StmtRes.exception => ChildOutcome.exitedWithError
    | StmtRes.cont => runChildProcess r rest

/-- The child branch body is the single `_execvp` call (line 43). -/
def childBranchBody : List CStmt := [CStmt.execvpStmt]

/-! ## Theorems -/

/-- Whatever chunks `write_all` hands to the descriptor, their concatenation
is exactly the original buffer: no byte is duplicated, dropped or reordered. -/
theorem write_all_join (oracle : List Nat) :
    ∀ (data : List Nat) (chunks : List (List Nat)),
      write_all oracle data = some chunks → chunks.flatten = data := by
  induction oracle with
  | nil =>
    intro data chunks h
    cases data with
    | nil =>
      simp only [write_all, Option.some.injEq] at h
      simp [← h]
    | cons d ds => simp [write_all] at h
  | cons n os ih =>
    intro data chunks h
    cases data with
    | nil =>
      simp only [write_all, Option.some.injEq] at h
      simp [← h]
    | cons d ds =>
      rw [write_all] at h
      by_cases hk : min n (d :: ds).length = 0
      · rw [if_pos hk] at h; exact absurd h (by simp)
      · rw [if_neg hk] at h
        cases hw : write_all os (List.drop (min n (d :: ds).length) (d :: ds)) with
        | none => rw [hw] at h; exact absurd h (by simp)
        | some cs =>
          rw [hw] at h
          simp only [Option.map_some', Option.some.injEq] at h
          subst h
          have htail := ih _ cs hw
          simp only [List.flatten_cons, htail, List.take_append_drop]

/-- When every `os.write` makes progress (returns at least one byte) and the
oracle provides enough calls, the retry loop of `write_all` terminates. -/
theorem write_all_isSome (oracle : List Nat) :
    (∀ n ∈ oracle, 1 ≤ n) → ∀ data : List Nat, data.length ≤ oracle.length →
      (write_all oracle data).isSome := by
  induction oracle with
  | nil =>
    intro _ data hlen
    cases data with
    | nil => simp [write_all]
    | cons d ds => simp at hlen
  | cons n os ih =>
    intro hpos data hlen
    cases data with
    | nil => simp [write_all]
    | cons d ds =>
      rw [write_all]
      have hn : 1 ≤ n := hpos n (List.mem_cons_self n os)
      have hlen2 : ds.length + 1 ≤ os.length + 1 := by simpa using hlen
      have hk : ¬(min n (d :: ds).length = 0) := by
        simp only [List.length_cons]
        omega
      rw [if_neg hk]
      have hdrop : (List.drop (min n (d :: ds).length) (d :: ds)).length ≤ os.length := by
        rw [List.length_drop]
        simp only [List.length_cons]
        omega
      have hrec := ih (fun m hm => hpos m (List.mem_cons_of_mem n hm)) _ hdrop
      obtain ⟨cs, hcs⟩ := Option.isSome_iff_exists.mp hrec
      rw [hcs]
      rfl

/-- C2: `write_all` writes exactly the given bytes, in order, with no
duplication or truncation, retrying the underlying `os.write` on partial
writes until the whole buffer is flushed; this holds for every buffer,
including payloads longer than `CHUNK_SIZE`, so every chunk the loop reads
from host input is forwarded intact to the PTY master and every chunk read
from the PTY master is forwarded intact to host output. -/
theorem write_all_fidelity (data oracle : List Nat)
    (hpos : ∀ n ∈ oracle, 1 ≤ n) (hlen : data.length ≤ oracle.length) :
    ∃ chunks, write_all oracle data = some chunks ∧ chunks.flatten = data := by
  obtain ⟨chunks, hc⟩ :=
    Option.isSome_iff_exists.mp (write_all_isSome oracle hpos data hlen)
  exact ⟨chunks, hc, write_all_join oracle data chunks hc⟩

/-- Witness for C2 at a concrete buffer and a concrete partial-write oracle. -/
theorem write_all_fidelity_witness :
    (∀ n ∈ [2, 2, 2, 2, 2], 1 ≤ n) ∧
    ∃ chunks, write_all [2, 2, 2, 2, 2] [9, 8, 7, 6, 5] = some chunks ∧
      chunks.flatten = [9, 8, 7, 6, 5] :=
  ⟨by decide, write_all_fidelity [9, 8, 7, 6, 5] [2, 2, 2, 2, 2] (by decide) (by decide)⟩

/-- C3 counterexample: the line `"-1x80"` parses to the integers `(-1, 80)`
(note `int("-1")` succeeds), so it reaches `_pack`, whose `struct.error` is
not caught: the batch aborts with nothing applied, the following well-formed
`"24x80"` line is never processed, and the uncaught exception escapes the
callback and ends the event loop. -/
theorem negative_resize_line_aborts_batch :
    parseResize (asciiBytes "-1x80") = some (-1, 80) ∧
    processLines [asciiBytes "-1x80", asciiBytes "24x80"] =
      ⟨[], some CmdError.structError⟩ ∧
    loopEnded initState = false ∧
    loopEnded (step initState (Ev.cmdioRead (asciiBytes "-1x80\n24x80"))) = true := by
  decide

/-- C3 (amended): a malformed line — wrong field count or a field that does
not parse as an integer — is silently discarded: it is not applied, it does
not stop processing of the remaining lines of the batch, and no error
surfaces.  But a line whose fields do parse as integers with a field outside
`0..65535` (such as `"-1x80"`) instead raises an uncaught `struct.error` that
aborts the batch and the event loop. -/
theorem malformed_resize_lines_ignored :
    (∀ (line : List Nat) (rest : List (List Nat)),
        parseResize line = none → processLines (line :: rest) = processLines rest) ∧
    (∀ lines : List (List Nat), (∀ l ∈ lines, parseResize l = none) →
        processLines lines = ⟨[], none⟩) ∧
    (∀ (line : List Nat) (r c : Int) (rest : List (List Nat)),
        parseResize line = some (r, c) →
        (r < 0 ∨ 65535 < r ∨ c < 0 ∨ 65535 < c) →
        processLines (line :: rest) = ⟨[], some CmdError.structError⟩) := by
  refine ⟨?_, ?_, ?_⟩
  · intro line rest h
    simp [processLines, h]
  · intro lines h
    induction lines with
    | nil => rfl
    | cons l ls ih =>
      rw [processLines, h l (List.mem_cons_self l ls)]
      exact ih (fun l' hl' => h l' (List.mem_cons_of_mem l hl'))
  · intro line r c rest hp hout
    have hpack : packHHHH r c = none := by
      unfold packHHHH
      rw [if_neg]
      intro hcond
      obtain ⟨h1, h2, h3, h4⟩ := hcond
      rcases hout with h | h | h | h <;> omega
    simp [processLines, hp, hpack]

/-- Witness for the amended C3 at concrete malformed lines. -/
theorem malformed_resize_lines_ignored_witness :
    processLines [asciiBytes "bad", asciiBytes "24x80"] =
      processLines [asciiBytes "24x80"] ∧
    processLines [asciiBytes "bad", asciiBytes "24x", asciiBytes "x80"] =
      ⟨[], none⟩ ∧
    processLines [asciiBytes "-1x80", asciiBytes "24x80"] =
      ⟨[], some CmdError.structError⟩ :=
  ⟨malformed_resize_lines_ignored.1 (asciiBytes "bad") [asciiBytes "24x80"] (by decide),
   malformed_resize_lines_ignored.2.1
     [asciiBytes "bad", asciiBytes "24x", asciiBytes "x80"] (by decide),
   malformed_resize_lines_ignored.2.2 (asciiBytes "-1x80") (-1) 80
     [asciiBytes "24x80"] (by decide) (by decide)⟩

/-- C4 counterexample: the two-byte batch `0xC3 0x28` is not valid UTF-8; the
strict decode on line 82 sits outside the `try`, so the resulting
`UnicodeDecodeError` is uncaught: it surfaces as a program error and aborts
the event loop. -/
theorem undecodable_batch_crashes_loop :
    (process_cmdio [195, 40]).error = some CmdError.unicodeDecodeError ∧
    initState.crashed = false ∧
    (step initState (Ev.cmdioRead [195, 40])).crashed = true := by
  decide

/-- C4 (amended): a control-channel batch that is not decodable as strict
UTF-8 always raises an uncaught `UnicodeDecodeError`: the decode failure IS
surfaced as a program error, escaping the reaction and aborting the event
loop (and with it the process). -/
theorem decode_failure_surfaces (data : List Nat)
    (h : utf8Decode data = none) :
    (process_cmdio data).error = some CmdError.unicodeDecodeError ∧
    ∀ s : LoopState, s.crashed = false → s.regs Src.cmdio = true →
      (step s (Ev.cmdioRead data)).crashed = true := by
  have hproc : process_cmdio data = ⟨[], some CmdError.unicodeDecodeError⟩ := by
    unfold process_cmdio
    rw [h]
  have hne : data ≠ [] := by
    intro hd
    subst hd
    exact Option.noConfusion h
  have hemp : data.isEmpty = false := by
    cases data with
    | nil => exact absurd rfl hne
    | cons a as => rfl
  refine ⟨by rw [hproc], ?_⟩
  intro s hc hr
  have hc2 : ¬(s.crashed = true) := by
    rw [hc]
    simp
  unfold step
  rw [if_neg hc2]
  show (if s.regs Src.cmdio = true then process_cmdio_step s data else s).crashed = true
  rw [if_pos hr]
  unfold process_cmdio_step
  rw [hemp]
  rw [if_neg (by simp : ¬(false = true))]
  rw [hproc]

/-- Witness for the amended C4 at the concrete batch `[0x80]` (a stray UTF-8
continuation byte). -/
theorem decode_failure_surfaces_witness :
    (process_cmdio [128]).error = some CmdError.unicodeDecodeError ∧
    (step initState (Ev.cmdioRead [128])).crashed = true :=
  ⟨(decode_failure_surfaces [128] (by decide)).1,
   (decode_failure_surfaces [128] (by decide)).2 initState (by decide) (by decide)⟩

/-- C5 counterexample: `"70000x80"` matches `<rows>x<columns>` — two decimal
integers separated by a single literal `x` — yet no `TIOCSWINSZ` update is
applied: `struct.pack("HHHH", 70000, 80, 0, 0)` raises `struct.error` (70000
does not fit a 16-bit unsigned field), the batch aborts, and the uncaught
error ends the event loop. -/
theorem oversized_resize_line_not_applied :
    parseResize (asciiBytes "70000x80") = some (70000, 80) ∧
    processLines [asciiBytes "70000x80"] = ⟨[], some CmdError.structError⟩ ∧
    loopEnded (step initState (Ev.cmdioRead (asciiBytes "70000x80"))) = true := by
  decide

/-- C5 (amended): for every control-channel line matching `<rows>x<columns>`
with both fields in `0..65535`, the decoder applies a `TIOCSWINSZ` geometry
update with exactly those rows and columns, and multiple such lines within
one batch are applied in their order of appearance; a matching line with a
field outside `0..65535` instead raises an uncaught `struct.error`. -/
theorem wellformed_resize_lines_applied (lines : List (List Nat))
    (h : ∀ l ∈ lines, goodResizeLine l = true) :
    processLines lines =
      ⟨lines.filterMap
        (fun l => (parseResize l).map (fun rc => (rc.1.toNat, rc.2.toNat))), none⟩ := by
  induction lines with
  | nil => rfl
  | cons l ls ih =>
    have hg := h l (List.mem_cons_self l ls)
    unfold goodResizeLine at hg
    cases hp : parseResize l with
    | none =>
      rw [hp] at hg
      exact absurd hg (by simp)
    | some rc =>
      rw [hp] at hg
      simp only [Bool.and_eq_true, decide_eq_true_eq] at hg
      obtain ⟨⟨⟨h1, h2⟩, h3⟩, h4⟩ := hg
      have hpack : packHHHH rc.1 rc.2 =
          some [rc.1.toNat % 256, rc.1.toNat / 256, rc.2.toNat % 256, rc.2.toNat / 256,
                0, 0, 0, 0] := by
        unfold packHHHH
        rw [if_pos ⟨h1, h2, h3, h4⟩]
      have ihr := ih (fun l' hl' => h l' (List.mem_cons_of_mem l hl'))
      simp [processLines, hp, hpack, ihr, List.filterMap_cons]

/-- Witness for the amended C5: `"24x80"` then `"7x9"` in one batch apply
`(24, 80)` and `(7, 9)`, in that order. -/
theorem wellformed_resize_lines_applied_witness :
    processLines [asciiBytes "24x80", asciiBytes "7x9"] =
      ⟨[(24, 80), (7, 9)], none⟩ :=
  (wellformed_resize_lines_applied [asciiBytes "24x80", asciiBytes "7x9"]
    (by decide)).trans (by decide)

/-- C10: a control-channel line whose two fields parse as integers in
`0..65535` is applied to the PTY even when a field is zero: the decoder does
not enforce the protocol's positivity requirement, and the fields are packed
as 16-bit unsigned values (native-endian `struct.pack("HHHH", ...)`) in the
geometry-set `ioctl`. -/
theorem in_range_resize_applied (line : List Nat) (r c : Int)
    (hp : parseResize line = some (r, c))
    (h1 : 0 ≤ r) (h2 : r ≤ 65535) (h3 : 0 ≤ c) (h4 : c ≤ 65535) :
    processLines [line] = ⟨[(r.toNat, c.toNat)], none⟩ ∧
    packHHHH r c =
      some [r.toNat % 256, r.toNat / 256, c.toNat % 256, c.toNat / 256, 0, 0, 0, 0] := by
  have hpack : packHHHH r c =
      some [r.toNat % 256, r.toNat / 256, c.toNat % 256, c.toNat / 256, 0, 0, 0, 0] := by
    unfold packHHHH
    rw [if_pos ⟨h1, h2, h3, h4⟩]
  refine ⟨?_, hpack⟩
  simp [processLines, hp, hpack]

/-- Witness for C10 at the all-zero line `"0x0"`: rows = 0 and columns = 0
are accepted and applied. -/
theorem in_range_resize_applied_witness :
    processLines [asciiBytes "0x0"] = ⟨[(0, 0)], none⟩ ∧
    packHHHH 0 0 = some [0, 0, 0, 0, 0, 0, 0, 0] := by
  have h := in_range_resize_applied (asciiBytes "0x0") 0 0 (by decide)
    (by decide) (by decide) (by decide) (by decide)
  exact ⟨h.1.trans (by decide), h.2.trans (by decide)⟩

/-- Unfolding equation of `step` for a PTY read event. -/
theorem step_ptyRead (s : LoopState) (d : List Nat) :
    step s (Ev.ptyRead d) =
      if s.crashed = true then s
      else if s.regs Src.pty = true then pipe_pty s (some d) else s := rfl

/-- Unfolding equation of `step` for a PTY read raising `OSError`. -/
theorem step_ptyReadErr (s : LoopState) :
    step s Ev.ptyReadErr =
      if s.crashed = true then s
      else if s.regs Src.pty = true then pipe_pty s none else s := rfl

/-- Unfolding equation of `step` for a stdin read event. -/
theorem step_stdinRead (s : LoopState) (d : List Nat) :
    step s (Ev.stdinRead d) =
      if s.crashed = true then s
      else if s.regs Src.stdin = true then pipe_stdin s d else s := rfl

/-- Unfolding equation of `step` for a control-channel read event. -/
theorem step_cmdioRead (s : LoopState) (d : List Nat) :
    step s (Ev.cmdioRead d) =
      if s.crashed = true then s
      else if s.regs Src.cmdio = true then process_cmdio_step s d else s := rfl

/-- `pipe_pty` on a successful read. -/
theorem pipe_pty_some (s : LoopState) (d : List Nat) :
    pipe_pty s (some d) =
      if d.isEmpty = true then
        { s with regs := setReg s.regs Src.pty false, running := false }
      else s := rfl

/-- `pipe_pty` on `OSError` (`data` becomes `b""`). -/
theorem pipe_pty_none (s : LoopState) :
    pipe_pty s none =
      { s with regs := setReg s.regs Src.pty false, running := false } := rfl

/-- Per-event effect of `step` on one registration slot: either the slot is
untouched, or it is cleared — and then it is the event's own source and the
event is an end-of-stream (or the PTY read error folded into it). -/
theorem step_regs_cases (s : LoopState) (e : Ev) (x : Src) :
    (step s e).regs x = s.regs x ∨
      ((step s e).regs x = false ∧ x = e.source ∧ isEofEv e = true) := by
  cases e with
  | ptyRead d =>
    rw [step_ptyRead]
    by_cases hc : s.crashed = true
    · left
      rw [if_pos hc]
    · rw [if_neg hc]
      by_cases hp : s.regs Src.pty = true
      · rw [if_pos hp, pipe_pty_some]
        by_cases hd : d.isEmpty = true
        · rw [if_pos hd]
          by_cases hx : x = Src.pty
          · subst hx
            right
            exact ⟨by simp [setReg], rfl, hd⟩
          · left
            simp [setReg, hx]
        · rw [if_neg hd]
          left
          rfl
      · rw [if_neg hp]
        left
        rfl
  | ptyReadErr =>
    rw [step_ptyReadErr]
    by_cases hc : s.crashed = true
    · left
      rw [if_pos hc]
    · rw [if_neg hc]
      by_cases hp : s.regs Src.pty = true
      · rw [if_pos hp, pipe_pty_none]
        by_cases hx : x = Src.pty
        · subst hx
          right
          exact ⟨by simp [setReg], rfl, rfl⟩
        · left
          simp [setReg, hx]
      · rw [if_neg hp]
        left
        rfl
  | stdinRead d =>
    rw [step_stdinRead]
    by_cases hc : s.crashed = true
    · left
      rw [if_pos hc]
    · rw [if_neg hc]
      by_cases hp : s.regs Src.stdin = true
      · rw [if_pos hp]
        unfold pipe_stdin
        by_cases hd : d.isEmpty = true
        · rw [if_pos hd]
          by_cases hx : x = Src.stdin
          · subst hx
            right
            exact ⟨by simp [setReg], rfl, hd⟩
          · left
            simp [setReg, hx]
        · rw [if_neg hd]
          left
          rfl
      · rw [if_neg hp]
        left
        rfl
  | cmdioRead d =>
    rw [step_cmdioRead]
    by_cases hc : s.crashed = true
    · left
      rw [if_pos hc]
    · rw [if_neg hc]
      by_cases hp : s.regs Src.cmdio = true
      · rw [if_pos hp]
        unfold process_cmdio_step
        by_cases hd : d.isEmpty = true
        · rw [if_pos hd]
          by_cases hx : x = Src.cmdio
          · subst hx
            right
            exact ⟨by simp [setReg], rfl, hd⟩
          · left
            simp [setReg, hx]
        · rw [if_neg hd]
          cases herr : (process_cmdio d).error with
          | some err =>
            left
            rfl
          | none =>
            left
            rfl
      · rw [if_neg hp]
        left
        rfl

/-- C1 counterexample: delivering the undecodable byte `0xFF` on the control
channel ends the loop (the `UnicodeDecodeError` escapes the callback and
aborts the `while`), although no read from the PTY master returned zero
bytes or raised an I/O error — so PTY end-of-stream is not the only
condition that ends the loop. -/
theorem control_bytes_end_loop_without_pty_eof :
    loopEnded initState = false ∧
    loopEnded (step initState (Ev.cmdioRead [255])) = true ∧
    Ev.source (Ev.cmdioRead [255]) ≠ Src.pty ∧
    isEofEv (Ev.cmdioRead [255]) = false := by
  decide

/-- C1 (amended): end-of-stream on host stdin or on the control channel only
deregisters that one source — it never clears `running` nor crashes the loop,
which continues serving the remaining sources; and the loop ends only on a
PTY read returning zero bytes, a PTY read raising `OSError`, or an uncaught
exception escaping the control-channel reaction (undecodable batch, or a
resize field outside `0..65535`). -/
theorem loop_end_conditions :
    (∀ (s : LoopState) (d : List Nat),
        (step s (Ev.stdinRead d)).running = s.running ∧
        (step s (Ev.stdinRead d)).crashed = s.crashed) ∧
    (∀ s : LoopState,
        (step s (Ev.cmdioRead [])).running = s.running ∧
        (step s (Ev.cmdioRead [])).crashed = s.crashed) ∧
    (∀ (s : LoopState) (x : Src), x ≠ Src.stdin →
        (step s (Ev.stdinRead [])).regs x = s.regs x) ∧
    (∀ (s : LoopState) (x : Src), x ≠ Src.cmdio →
        (step s (Ev.cmdioRead [])).regs x = s.regs x) ∧
    (∀ (s : LoopState) (e : Ev),
        s.crashed = false → s.running = true → loopEnded (step s e) = true →
        e = Ev.ptyRead [] ∨ e = Ev.ptyReadErr ∨
          ∃ d, e = Ev.cmdioRead d ∧ (process_cmdio d).error ≠ none) := by
  refine ⟨?_, ?_, ?_, ?_, ?_⟩
  · intro s d
    rw [step_stdinRead]
    by_cases hc : s.crashed = true
    · rw [if_pos hc]
      exact ⟨rfl, rfl⟩
    · rw [if_neg hc]
      by_cases hp : s.regs Src.stdin = true
      · rw [if_pos hp]
        unfold pipe_stdin
        by_cases hd : d.isEmpty = true
        · rw [if_pos hd]
          exact ⟨rfl, rfl⟩
        · rw [if_neg hd]
          exact ⟨rfl, rfl⟩
      · rw [if_neg hp]
        exact ⟨rfl, rfl⟩
  · intro s
    rw [step_cmdioRead]
    by_cases hc : s.crashed = true
    · rw [if_pos hc]
      exact ⟨rfl, rfl⟩
    · rw [if_neg hc]
      by_cases hp : s.regs Src.cmdio = true
      · rw [if_pos hp]
        unfold process_cmdio_step
        rw [if_pos (show ([] : List Nat).isEmpty = true from rfl)]
        exact ⟨rfl, rfl⟩
      · rw [if_neg hp]
        exact ⟨rfl, rfl⟩
  · intro s x hx
    rcases step_regs_cases s (Ev.stdinRead []) x with h | ⟨_, hsrc, _⟩
    · exact h
    · exact absurd hsrc hx
  · intro s x hx
    rcases step_regs_cases s (Ev.cmdioRead []) x with h | ⟨_, hsrc, _⟩
    · exact h
    · exact absurd hsrc hx
  · intro s e hc hr hend
    have hc2 : ¬(s.crashed = true) := by
      rw [hc]
      simp
    have hs : loopEnded s = false := by
      rw [loopEnded, hc, hr]
      rfl
    cases e with
    | ptyRead d =>
      cases d with
      | nil => exact Or.inl rfl
      | cons a as =>
        exfalso
        rw [step_ptyRead, if_neg hc2] at hend
        by_cases hp : s.regs Src.pty = true
        · rw [if_pos hp, pipe_pty_some,
            if_neg (by simp : ¬((a :: as).isEmpty = true))] at hend
          exact Bool.false_ne_true (hs.symm.trans hend)
        · rw [if_neg hp] at hend
          exact Bool.false_ne_true (hs.symm.trans hend)
    | ptyReadErr => exact Or.inr (Or.inl rfl)
    | stdinRead d =>
      exfalso
      rw [step_stdinRead, if_neg hc2] at hend
      by_cases hp : s.regs Src.stdin = true
      · rw [if_pos hp] at hend
        unfold pipe_stdin at hend
        by_cases hd : d.isEmpty = true
        · rw [if_pos hd] at hend
          have h2 : loopEnded s = true := hend
          exact Bool.false_ne_true (hs.symm.trans h2)
        · rw [if_neg hd] at hend
          exact Bool.false_ne_true (hs.symm.trans hend)
      · rw [if_neg hp] at hend
        exact Bool.false_ne_true (hs.symm.trans hend)
    | cmdioRead d =>
      rw [step_cmdioRead, if_neg hc2] at hend
      by_cases hp : s.regs Src.cmdio = true
      · rw [if_pos hp] at hend
        unfold process_cmdio_step at hend
        by_cases hd : d.isEmpty = true
        · exfalso
          rw [if_pos hd] at hend
          have h2 : loopEnded s = true := hend
          exact Bool.false_ne_true (hs.symm.trans h2)
        · rw [if_neg hd] at hend
          cases herr : (process_cmdio d).error with
          | some err =>
            refine Or.inr (Or.inr ⟨d, rfl, ?_⟩)
            rw [herr]
            simp
          | none =>
            exfalso
            rw [herr] at hend
            have h2 : loopEnded s = true := hend
            exact Bool.false_ne_true (hs.symm.trans h2)
      · exfalso
        rw [if_neg hp] at hend
        exact Bool.false_ne_true (hs.symm.trans hend)

/-- Witness for the amended C1: concrete instantiations — stdin end-of-stream
leaves the PTY registration and the `running` flag untouched, and the only
way the concrete initial state ends the loop on a PTY event is the zero-byte
read. -/
theorem loop_end_conditions_witness :
    (step initState (Ev.stdinRead [])).regs Src.pty = initState.regs Src.pty ∧
    ((step initState (Ev.stdinRead [])).running = initState.running ∧
      (step initState (Ev.stdinRead [])).crashed = initState.crashed) ∧
    (Ev.ptyRead [] = Ev.ptyRead [] ∨ Ev.ptyRead [] = Ev.ptyReadErr ∨
      ∃ d, Ev.ptyRead [] = Ev.cmdioRead d ∧ (process_cmdio d).error ≠ none) :=
  ⟨loop_end_conditions.2.2.1 initState Src.pty (by decide),
   loop_end_conditions.1 initState [],
   loop_end_conditions.2.2.2.2 initState (Ev.ptyRead []) (by decide) (by decide)
     (by decide)⟩

/-- C8: the set of descriptors registered with the selector shrinks
monotonically.  It starts as exactly the three sources (PTY master, host
stdin, control descriptor 3); each dispatched reaction removes at most its
own descriptor, and only upon that source's end-of-stream (the PTY `OSError`
being folded into the zero-byte path by lines 59-60); a registration never
reappears across any run of the loop. -/
theorem registered_set_shrinks :
    (∀ x : Src, initState.regs x = true) ∧
    (∀ (s : LoopState) (e : Ev) (x : Src),
        (step s e).regs x = true → s.regs x = true) ∧
    (∀ (s : LoopState) (e : Ev) (x : Src),
        x ≠ e.source → (step s e).regs x = s.regs x) ∧
    (∀ (s : LoopState) (e : Ev),
        (step s e).regs e.source = false →
        s.regs e.source = false ∨ isEofEv e = true) ∧
    (∀ (evs : List Ev) (s : LoopState) (x : Src),
        (List.foldl step s evs).regs x = true → s.regs x = true) := by
  have h2 : ∀ (s : LoopState) (e : Ev) (x : Src),
      (step s e).regs x = true → s.regs x = true := by
    intro s e x h
    rcases step_regs_cases s e x with heq | ⟨hf, _, _⟩
    · rw [← heq]
      exact h
    · rw [hf] at h
      exact absurd h (by simp)
  refine ⟨fun x => rfl, h2, ?_, ?_, ?_⟩
  · intro s e x hx
    rcases step_regs_cases s e x with heq | ⟨_, hsrc, _⟩
    · exact heq
    · exact absurd hsrc hx
  · intro s e h
    rcases step_regs_cases s e e.source with heq | ⟨_, _, heof⟩
    · left
      rw [← heq]
      exact h
    · right
      exact heof
  · intro evs
    induction evs with
    | nil =>
      intro s x h
      exact h
    | cons e es ih =>
      intro s x h
      rw [List.foldl_cons] at h
      exact h2 s e x (ih (step s e) x h)

/-- Witness for C8 at concrete states and events: stdin end-of-stream leaves
the PTY slot registered, its own slot's removal is an end-of-stream removal,
and a registration surviving a run was registered initially. -/
theorem registered_set_shrinks_witness :
    initState.regs Src.pty = true ∧
    (step initState (Ev.stdinRead [])).regs Src.pty = initState.regs Src.pty ∧
    (initState.regs Src.stdin = false ∨ isEofEv (Ev.stdinRead []) = true) ∧
    initState.regs Src.cmdio = true :=
  ⟨registered_set_shrinks.1 Src.pty,
   registered_set_shrinks.2.2.1 initState (Ev.stdinRead []) Src.pty (by decide),
   registered_set_shrinks.2.2.2.1 initState (Ev.stdinRead []) (by decide),
   registered_set_shrinks.2.2.2.2 [Ev.stdinRead [], Ev.ptyRead [97]] initState
     Src.cmdio (by decide)⟩

/-- C6: once the event loop has terminated normally (the `running` flag
cleared, no exception escaped), `main` waits for the child exactly once and
exits with the translated status: a child exiting normally with code `rc`
yields exit code `rc`, and a child killed by signal `sig` yields
`-sig` — non-zero and distinct from every normal exit code, which is
non-negative. -/
theorem reaper_translates_status (evs : List Ev) (rc sig : Nat)
    (hrc : rc ≤ 255) (hs1 : 1 ≤ sig) (hs2 : sig ≤ 126)
    (hnc : (runLoop evs).crashed = false) (hnr : (runLoop evs).running = false) :
    mainRun evs (mkExitedStatus rc) = some ⟨1, some (rc : Int)⟩ ∧
    mainRun evs (mkSignaledStatus sig) = some ⟨1, some (-(sig : Int))⟩ ∧
    -(sig : Int) < 0 ∧ (0 : Int) ≤ (rc : Int) := by
  have h1 : waitstatus_to_exitcode (mkExitedStatus rc) = some (rc : Int) := by
    unfold waitstatus_to_exitcode mkExitedStatus
    rw [if_pos (by omega : 256 * rc % 128 = 0)]
    have : 256 * rc / 256 % 256 = rc := by omega
    rw [this]
  have h2 : waitstatus_to_exitcode (mkSignaledStatus sig) = some (-(sig : Int)) := by
    unfold waitstatus_to_exitcode mkSignaledStatus
    rw [if_neg (by omega : ¬(sig % 128 = 0)), if_neg (by omega : ¬(sig % 128 = 127))]
    have : sig % 128 = sig := by omega
    rw [this]
  have hmain : ∀ status : Nat,
      mainRun evs status = some ⟨1, waitstatus_to_exitcode status⟩ := by
    intro status
    unfold mainRun
    show (if (runLoop evs).crashed = true then some (FinalResult.mk 0 none)
        else if (runLoop evs).running = true then none
        else some (FinalResult.mk 1 (waitstatus_to_exitcode status))) =
      some (FinalResult.mk 1 (waitstatus_to_exitcode status))
    rw [hnc, hnr]
    simp
  refine ⟨?_, ?_, by omega, by omega⟩
  · rw [hmain, h1]
  · rw [hmain, h2]

/-- Witness for C6: after a PTY end-of-stream ends the loop, a child exit
code 7 propagates as exit code 7 and death by signal 9 maps to `-9`. -/
theorem reaper_translates_status_witness :
    mainRun [Ev.ptyRead []] (mkExitedStatus 7) = some ⟨1, some 7⟩ ∧
    mainRun [Ev.ptyRead []] (mkSignaledStatus 9) = some ⟨1, some (-9)⟩ :=
  ⟨(reaper_translates_status [Ev.ptyRead []] 7 9 (by decide) (by decide) (by decide)
      (by decide) (by decide)).1,
   (reaper_translates_status [Ev.ptyRead []] 7 9 (by decide) (by decide) (by decide)
      (by decide) (by decide)).2.1⟩

/-- C7 counterexample: `main` performs no terminal-attribute operation at
all — it never captures the host terminal attributes, never switches the
input stream to raw mode, and never restores anything, contradicting the
claimed capture-and-restore behaviour. -/
theorem no_terminal_mode_ops_in_main :
    MainOp.tcgetattr ∉ mainOps ∧ MainOp.setraw ∉ mainOps ∧
      MainOp.tcsetattr ∉ mainOps := by
  decide

/-- C7 (amended): the program never captures or modifies the host terminal's
attributes — no raw-mode switch is applied and none is restored on any exit
path — so the host terminal mode after the bridge equals the mode before it
only because the bridge never touches it. -/
theorem main_leaves_terminal_mode_unchanged :
    mainOps.filter isTermAttrOp = [] ∧
    ∀ (α : Type) (mode raw : α),
      mainOps.foldl (fun m op => if isTermAttrOp op then raw else m) mode = mode :=
  ⟨by decide, fun α mode raw => rfl⟩

/-- C9: on the child branch of the fork (`pid == 0`) the process image is
either replaced by the shell or, when `os.execvp` raises, the uncaught
exception terminates the child; control never falls through into the
parent-side I/O-loop code following the branch. -/
theorem child_branch_never_falls_through :
    ∀ r : ExecResult,
      runChildProcess r childBranchBody ≠ ChildOutcome.fellThroughToParentLoop := by
  intro r
  cases r with
  | replaced => decide
  | raisedOSError => decide
